import Mathlib

/-!
# Verification of the dropzone-kit file-validation engine

This file gives a shallow embedding of the validation engine of the
dropzone-kit repository (`validateFile` and `validator` in
`src/validator/Validator.ts`) and proves the specified properties about it.

Modelling conventions:
* A JavaScript `File` is modelled by its three fields read by the engine:
  `name`, `size` (a non-negative byte count, hence `Nat`) and `type`.
* Optional numeric parameters (`maxFiles`, `maxSize`, `minSize`) are
  `Option Nat`; the JavaScript truthiness test `!x` on such a value is true
  exactly when the value is `undefined` or `0`, modelled by `jsTruthy`.
* `acceptedFormats : string[] | undefined` is `Option (List String)`; note
  that in JavaScript an *empty array is truthy*, so `some []` is not the
  same as `none` — this is preserved faithfully.
* `messages?.find(...)` is modelled by `catalogFind`.
-/

namespace DropzoneKit

/-- The closed set of validation error codes (`IFileErrorTypes`). -/
inductive IFileErrorTypes where
  | tooManyFiles
  | fileInvalidType
  | fileTooLarge
  | fileTooSmall
deriving DecidableEq, Repr

/-- The fields of a JavaScript `File` object that the engine reads:
`name`, `size` and the MIME `type` string. -/
structure JSFile where
  name : String
  size : Nat
  type : String
deriving DecidableEq, Repr

/-- An error-catalog entry / emitted error record (`IFileError`). -/
structure IFileError where
  code : IFileErrorTypes
  message : String
deriving DecidableEq, Repr

/-- A rejection record (`IFileRejection`): a file together with the ordered
list of its violations. -/
structure IFileRejection where
  file : JSFile
  error : List IFileError
deriving DecidableEq, Repr

/-- `messages?.find((v) => v.code === code)`: look up the first catalog entry
carrying `code`; `none` when the catalog is absent or has no such entry. -/
def catalogFind (messages : Option (List IFileError))
    (code : IFileErrorTypes) : Option IFileError :=
  messages.bind (fun ms => ms.find? (fun v => v.code == code))

/-- The rule evaluator `validateFile`: returns the catalog entry for
`validationCode` when one exists and `condition` is false, else `none`
(source: `validation && !condition ? validation : null`). -/
def validateFile (validationCode : IFileErrorTypes) (condition : Bool)
    (messages : Option (List IFileError)) : Option IFileError :=
  match catalogFind messages validationCode with
  | some validation => if condition then none else some validation
  | none => none

/-- JavaScript truthiness of a `number | undefined` value restricted to
non-negative integers: `undefined` and `0` are falsy. -/
def jsTruthy : Option Nat → Bool
  | none => false
  | some n => decide (n ≠ 0)

/-- JavaScript `s.startsWith(p)`: `p` is a literal, case-sensitive prefix
of `s` (stated on the character lists so that it is kernel-computable). -/
def strStartsWith (s p : String) : Bool := p.toList.isPrefixOf s.toList

/-- JavaScript `s.endsWith(p)`: `p` is a literal, case-sensitive suffix
of `s`. -/
def strEndsWith (s p : String) : Bool := p.toList.isSuffixOf s.toList

/-- One `acceptedFormats` pattern applied to one file
(source: `format.startsWith(".") ? file.name.endsWith(format)
: file.type.startsWith(format)`). -/
def formatMatches (file : JSFile) (format : String) : Bool :=
  if strStartsWith format "." then strEndsWith file.name format
  else strStartsWith file.type format

/-- Condition of rule 1 (source: `!maxFiles || files.length <= maxFiles`). -/
def tooManyFilesCond (maxFiles : Option Nat) (count : Nat) : Bool :=
  !jsTruthy maxFiles || decide (count ≤ maxFiles.getD 0)

/-- Condition of rule 2 (source: `acceptedFormats ? acceptedFormats.some(...)
: true`); an empty array is truthy, hence `some []` yields `false`. -/
def fileInvalidTypeCond (acceptedFormats : Option (List String))
    (file : JSFile) : Bool :=
  match acceptedFormats with
  | some formats => formats.any (fun format => formatMatches file format)
  | none => true

/-- Condition of rule 3 (source: `!maxSize || file.size <= maxSize`). -/
def fileTooLargeCond (maxSize : Option Nat) (file : JSFile) : Bool :=
  !jsTruthy maxSize || decide (file.size ≤ maxSize.getD 0)

/-- Condition of rule 4 (source: `!minSize || file.size >= minSize`). -/
def fileTooSmallCond (minSize : Option Nat) (file : JSFile) : Bool :=
  !jsTruthy minSize || decide (minSize.getD 0 ≤ file.size)

/-- The per-file rule evaluations of the `validator` body, in source order,
with the `null` results filtered out (source lines building `fileRejections`). -/
def fileErrors (count : Nat) (messages : Option (List IFileError))
    (maxFiles maxSize minSize : Option Nat)
    (acceptedFormats : Option (List String)) (file : JSFile) :
    List IFileError :=
  [ validateFile .tooManyFiles (tooManyFilesCond maxFiles count) messages,
    validateFile .fileInvalidType (fileInvalidTypeCond acceptedFormats file) messages,
    validateFile .fileTooLarge (fileTooLargeCond maxSize file) messages,
    validateFile .fileTooSmall (fileTooSmallCond minSize file) messages
  ].filterMap id

/-- The batch validator (`validator`): a `reduce` over the files that pushes
one rejection record per file whose `fileErrors` list is non-empty. -/
def validator (files : List JSFile) (messages : Option (List IFileError))
    (maxFiles maxSize minSize : Option Nat)
    (acceptedFormats : Option (List String)) : List IFileRejection :=
  files.foldl (fun rejections file =>
    let fileRejections :=
      fileErrors files.length messages maxFiles maxSize minSize acceptedFormats file
    if fileRejections = [] then rejections
    else rejections ++ [{ file := file, error := fileRejections }]) []

/-- "File `f` receives an error with code `c`" in an output rejection list. -/
def receivesError (out : List IFileRejection) (file : JSFile)
    (code : IFileErrorTypes) : Prop :=
  ∃ r ∈ out, r.file = file ∧ ∃ e ∈ r.error, e.code = code

instance (out : List IFileRejection) (file : JSFile) (code : IFileErrorTypes) :
    Decidable (receivesError out file code) := by
  unfold receivesError; infer_instance

/-- The per-rule boolean condition selected by an error code, as computed in
the body of `validator`. -/
def ruleCond (code : IFileErrorTypes) (count : Nat)
    (maxFiles maxSize minSize : Option Nat)
    (acceptedFormats : Option (List String)) (file : JSFile) : Bool :=
  match code with
  | .tooManyFiles => tooManyFilesCond maxFiles count
  | .fileInvalidType => fileInvalidTypeCond acceptedFormats file
  | .fileTooLarge => fileTooLargeCond maxSize file
  | .fileTooSmall => fileTooSmallCond minSize file

/-- The fixed rule-evaluation order of the `validator` body. -/
def ruleOrder : List IFileErrorTypes :=
  [.tooManyFiles, .fileInvalidType, .fileTooLarge, .fileTooSmall]

theorem catalogFind_code {messages : Option (List IFileError)}
    {code : IFileErrorTypes} {v : IFileError}
    (h : catalogFind messages code = some v) : v.code = code := by
  rcases messages with _ | ms
  · simp [catalogFind] at h
  · have hp := List.find?_some (p := fun w : IFileError => w.code == code)
      (by simpa [catalogFind] using h)
    simpa using hp

theorem validateFile_some_iff {code : IFileErrorTypes} {condition : Bool}
    {messages : Option (List IFileError)} {e : IFileError} :
    validateFile code condition messages = some e ↔
      catalogFind messages code = some e ∧ condition = false := by
  unfold validateFile
  rcases h : catalogFind messages code with _ | v
  · simp
  · cases condition <;> simp

theorem validateFile_code {code : IFileErrorTypes} {condition : Bool}
    {messages : Option (List IFileError)} {e : IFileError}
    (h : validateFile code condition messages = some e) : e.code = code :=
  catalogFind_code (validateFile_some_iff.mp h).1

theorem validateFile_true (code : IFileErrorTypes)
    (messages : Option (List IFileError)) :
    validateFile code true messages = none := by
  unfold validateFile
  cases catalogFind messages code <;> simp

theorem foldl_rejections (g : JSFile → List IFileError) (l : List JSFile)
    (acc : List IFileRejection) :
    l.foldl (fun rejections file =>
        if g file = [] then rejections
        else rejections ++ [{ file := file, error := g file }]) acc
      = acc ++ l.filterMap (fun file =>
          if g file = [] then none
          else some { file := file, error := g file }) := by
  induction l generalizing acc with
  | nil => simp
  | cons f fs ih => by_cases h : g f = [] <;> simp [h, ih]

/-- The `reduce` in `validator` is a per-file `filterMap`: each file is
mapped, independently of every other file, to an optional rejection record. -/
theorem validator_eq (files : List JSFile)
    (messages : Option (List IFileError)) (mf ms mn : Option Nat)
    (af : Option (List String)) :
    validator files messages mf ms mn af
      = files.filterMap (fun file =>
          if fileErrors files.length messages mf ms mn af file = [] then none
          else some { file := file,
                      error := fileErrors files.length messages mf ms mn af file }) := by
  have h := foldl_rejections (fileErrors files.length messages mf ms mn af) files []
  simpa [validator] using h

theorem mem_validator {files : List JSFile}
    {messages : Option (List IFileError)} {mf ms mn : Option Nat}
    {af : Option (List String)} {r : IFileRejection} :
    r ∈ validator files messages mf ms mn af ↔
      r.file ∈ files
      ∧ r.error = fileErrors files.length messages mf ms mn af r.file
      ∧ fileErrors files.length messages mf ms mn af r.file ≠ [] := by
  rw [validator_eq, List.mem_filterMap]
  constructor
  · rintro ⟨f, hf, hsome⟩
    by_cases h : fileErrors files.length messages mf ms mn af f = []
    · simp [h] at hsome
    · rw [if_neg h] at hsome
      injection hsome with hsome
      subst hsome
      exact ⟨hf, rfl, h⟩
  · rintro ⟨hmem, herr, hne⟩
    refine ⟨r.file, hmem, ?_⟩
    rw [if_neg hne]
    rw [← herr]

theorem mem_fileErrors_iff {count : Nat} {messages : Option (List IFileError)}
    {mf ms mn : Option Nat} {af : Option (List String)} {file : JSFile}
    {e : IFileError} :
    e ∈ fileErrors count messages mf ms mn af file ↔
      catalogFind messages e.code = some e
      ∧ ruleCond e.code count mf ms mn af file = false := by
  unfold fileErrors
  simp only [List.mem_filterMap, List.mem_cons, List.not_mem_nil, or_false,
    id_eq, exists_eq_or_imp, exists_eq_left]
  constructor
  · rintro (h | h | h | h) <;>
      · have hc := validateFile_code h
        obtain ⟨hfind, hcond⟩ := validateFile_some_iff.mp h
        simp [ruleCond, hc]
        exact ⟨hfind, hcond⟩
  · rintro ⟨hfind, hcond⟩
    cases hc : e.code <;> rw [hc] at hfind <;> simp [ruleCond, hc] at hcond
    · exact Or.inl (validateFile_some_iff.mpr ⟨hfind, hcond⟩)
    · exact Or.inr (Or.inl (validateFile_some_iff.mpr ⟨hfind, hcond⟩))
    · exact Or.inr (Or.inr (Or.inl (validateFile_some_iff.mpr ⟨hfind, hcond⟩)))
    · exact Or.inr (Or.inr (Or.inr (validateFile_some_iff.mpr ⟨hfind, hcond⟩)))

theorem receivesError_iff {files : List JSFile}
    {messages : Option (List IFileError)} {mf ms mn : Option Nat}
    {af : Option (List String)} {file : JSFile} {code : IFileErrorTypes}
    (hf : file ∈ files) :
    receivesError (validator files messages mf ms mn af) file code ↔
      (∃ entry, catalogFind messages code = some entry)
      ∧ ruleCond code files.length mf ms mn af file = false := by
  constructor
  · rintro ⟨r, hr, hrfile, e, he, hcode⟩
    obtain ⟨-, herr, -⟩ := mem_validator.mp hr
    rw [herr, hrfile] at he
    obtain ⟨hfind, hcond⟩ := mem_fileErrors_iff.mp he
    rw [hcode] at hfind hcond
    exact ⟨⟨e, hfind⟩, hcond⟩
  · rintro ⟨⟨entry, hfind⟩, hcond⟩
    have hecode : entry.code = code := catalogFind_code hfind
    have hmem : entry ∈ fileErrors files.length messages mf ms mn af file := by
      apply mem_fileErrors_iff.mpr
      rw [hecode]
      exact ⟨hfind, hcond⟩
    exact ⟨⟨file, fileErrors files.length messages mf ms mn af file⟩,
      mem_validator.mpr ⟨hf, rfl, List.ne_nil_of_mem hmem⟩, rfl,
      entry, hmem, hecode⟩

theorem filterMap_codes_sublist {l : List (Option IFileError)}
    {cs : List IFileErrorTypes}
    (h : List.Forall₂ (fun o c => ∀ e, o = some e → IFileError.code e = c) l cs) :
    List.Sublist ((l.filterMap id).map IFileError.code) cs := by
  induction h with
  | nil => simp
  | cons h₁ h₂ ih =>
      rename_i o c l' cs'
      rcases o with _ | e
      · simpa using ih.cons c
      · have hc : e.code = c := h₁ e rfl
        simpa [hc] using ih.cons₂ c

theorem fileErrors_codes_sublist (count : Nat)
    (messages : Option (List IFileError)) (mf ms mn : Option Nat)
    (af : Option (List String)) (file : JSFile) :
    List.Sublist ((fileErrors count messages mf ms mn af file).map IFileError.code)
      ruleOrder := by
  unfold fileErrors ruleOrder
  exact filterMap_codes_sublist
    (.cons (fun e h => validateFile_code h)
      (.cons (fun e h => validateFile_code h)
        (.cons (fun e h => validateFile_code h)
          (.cons (fun e h => validateFile_code h) .nil))))

theorem filterMap_file_sublist (g : JSFile → Option IFileRejection)
    (hg : ∀ f r, g f = some r → r.file = f) (l : List JSFile) :
    List.Sublist ((l.filterMap g).map IFileRejection.file) l := by
  induction l with
  | nil => simp
  | cons f fs ih =>
      rcases hgf : g f with _ | r
      · simpa [hgf] using ih.cons f
      · have hr : r.file = f := hg f r hgf
        simpa [hgf, hr] using ih.cons₂ f

theorem validator_files_sublist (files : List JSFile)
    (messages : Option (List IFileError)) (mf ms mn : Option Nat)
    (af : Option (List String)) :
    List.Sublist ((validator files messages mf ms mn af).map IFileRejection.file)
      files := by
  rw [validator_eq]
  apply filterMap_file_sublist
  intro f r h
  by_cases hh : fileErrors files.length messages mf ms mn af f = []
  · simp [hh] at h
  · rw [if_neg hh] at h
    injection h with h
    subst h
    rfl

/-! ### Claims -/

/-- C1: an error code absent from the catalog never appears in the output
for any file; when the code is configured and its condition is violated, the
emitted record is exactly (code and message) the catalog entry found for it.
Every error record in any output is the catalog entry for its own code. -/
theorem catalog_controls_errors :
    (∀ (files : List JSFile) (messages : Option (List IFileError))
        (mf ms mn : Option Nat) (af : Option (List String)),
      ∀ r ∈ validator files messages mf ms mn af, ∀ e ∈ r.error,
        catalogFind messages e.code = some e)
    ∧ (∀ (code : IFileErrorTypes) (condition : Bool)
          (messages : Option (List IFileError)),
        catalogFind messages code = none →
        validateFile code condition messages = none)
    ∧ (∀ (code : IFileErrorTypes) (messages : Option (List IFileError))
          (entry : IFileError),
        catalogFind messages code = some entry →
        validateFile code false messages = some entry) := by
  refine ⟨?_, ?_, ?_⟩
  · intro files messages mf ms mn af r hr e he
    obtain ⟨-, herr, -⟩ := mem_validator.mp hr
    rw [herr] at he
    exact (mem_fileErrors_iff.mp he).1
  · intro code condition messages h
    unfold validateFile
    simp [h]
  · intro code messages entry h
    unfold validateFile
    simp [h]

theorem catalog_controls_errors_witness :
    catalogFind (some [⟨.fileTooLarge, "File is too large"⟩]) .fileTooLarge
      = some ⟨.fileTooLarge, "File is too large"⟩ :=
  catalog_controls_errors.1 [⟨"a.txt", 5, "text/plain"⟩]
    (some [⟨.fileTooLarge, "File is too large"⟩]) none (some 1) none none
    ⟨⟨"a.txt", 5, "text/plain"⟩, [⟨.fileTooLarge, "File is too large"⟩]⟩
    (by decide) ⟨.fileTooLarge, "File is too large"⟩ (by decide)

/-- C2 counterexample: with `maxSize = 0` configured and the catalog entry
present, a file of size `1 > 0` receives no `file-too-large` error, so the
claimed equivalence fails for the non-negative bound `0`. -/
theorem size_zero_not_enforced :
    (0 : Nat) < 1
    ∧ ¬ receivesError
        (validator [⟨"a.txt", 1, "text/plain"⟩]
          (some [⟨.fileTooLarge, "File is too large"⟩]) none (some 0) none none)
        ⟨"a.txt", 1, "text/plain"⟩ .fileTooLarge := by
  decide

/-- C2 (amended to positive bounds): for every present positive `maxSize`
with the `file-too-large` entry configured, a file receives `file-too-large`
iff its size strictly exceeds `maxSize` (the bound is inclusive), and
symmetrically for a positive `minSize` with the `file-too-small` entry. -/
theorem size_bounds_inclusive :
    (∀ (files : List JSFile) (file : JSFile)
        (messages : Option (List IFileError)) (mf mn : Option Nat)
        (af : Option (List String)) (m : Nat) (entry : IFileError),
      0 < m → file ∈ files →
      catalogFind messages .fileTooLarge = some entry →
      (receivesError (validator files messages mf (some m) mn af) file .fileTooLarge
        ↔ m < file.size))
    ∧ (∀ (files : List JSFile) (file : JSFile)
        (messages : Option (List IFileError)) (mf ms : Option Nat)
        (af : Option (List String)) (n : Nat) (entry : IFileError),
      0 < n → file ∈ files →
      catalogFind messages .fileTooSmall = some entry →
      (receivesError (validator files messages mf ms (some n) af) file .fileTooSmall
        ↔ file.size < n)) := by
  constructor
  · intro files file messages mf mn af m entry hm hf hfind
    have hm0 : m ≠ 0 := Nat.pos_iff_ne_zero.mp hm
    rw [receivesError_iff hf]
    simp [ruleCond, fileTooLargeCond, jsTruthy, hm0, hfind, Nat.not_le]
  · intro files file messages mf ms af n entry hn hf hfind
    have hn0 : n ≠ 0 := Nat.pos_iff_ne_zero.mp hn
    rw [receivesError_iff hf]
    simp [ruleCond, fileTooSmallCond, jsTruthy, hn0, hfind, Nat.not_le]

theorem size_bounds_inclusive_witness :
    receivesError
      (validator [⟨"big.txt", 2001, "text/plain"⟩]
        (some [⟨.fileTooLarge, "File is too large"⟩]) none (some 2000) none none)
      ⟨"big.txt", 2001, "text/plain"⟩ .fileTooLarge :=
  (size_bounds_inclusive.1 [⟨"big.txt", 2001, "text/plain"⟩]
    ⟨"big.txt", 2001, "text/plain"⟩
    (some [⟨.fileTooLarge, "File is too large"⟩]) none none none 2000
    ⟨.fileTooLarge, "File is too large"⟩
    (by decide) (by decide) (by decide)).mpr (by decide)

/-- C3: with the `file-invalid-type` entry configured, an absent
`acceptedFormats` never yields that error; a present list yields it exactly
when no pattern matches, where a pattern starting with `.` matches by
case-sensitive name suffix and any other pattern by case-sensitive prefix of
the type string; the present-but-empty list always yields the error. -/
theorem accepted_formats_semantics :
    ∀ (files : List JSFile) (file : JSFile)
      (messages : Option (List IFileError)) (mf ms mn : Option Nat)
      (entry : IFileError),
      file ∈ files →
      catalogFind messages .fileInvalidType = some entry →
      (¬ receivesError (validator files messages mf ms mn none) file .fileInvalidType)
      ∧ (∀ formats : List String,
          (receivesError (validator files messages mf ms mn (some formats)) file
              .fileInvalidType
            ↔ ¬ ∃ format ∈ formats, formatMatches file format = true))
      ∧ receivesError (validator files messages mf ms mn (some [])) file
          .fileInvalidType := by
  intro files file messages mf ms mn entry hf hfind
  refine ⟨?_, ?_, ?_⟩
  · rw [receivesError_iff hf]
    simp [ruleCond, fileInvalidTypeCond]
  · intro formats
    rw [receivesError_iff hf]
    simp [ruleCond, fileInvalidTypeCond, hfind, List.any_eq_false]
  · rw [receivesError_iff hf]
    simp [ruleCond, fileInvalidTypeCond, hfind]

theorem accepted_formats_semantics_witness :
    receivesError
      (validator [⟨"file1.exe", 1000, "application/octet-stream"⟩]
        (some [⟨.fileInvalidType, "Invalid file type"⟩]) none none none
        (some ["text/plain"]))
      ⟨"file1.exe", 1000, "application/octet-stream"⟩ .fileInvalidType :=
  ((accepted_formats_semantics [⟨"file1.exe", 1000, "application/octet-stream"⟩]
      ⟨"file1.exe", 1000, "application/octet-stream"⟩
      (some [⟨.fileInvalidType, "Invalid file type"⟩]) none none none
      ⟨.fileInvalidType, "Invalid file type"⟩
      (by decide) (by decide)).2.1 ["text/plain"]).mpr (by decide)

/-- C4: with a positive `maxFiles` and the `too-many-files` entry
configured, *every* file of the batch receives the `too-many-files` error
exactly when the total file count exceeds `maxFiles` — the condition depends
only on the batch length, never on the individual file. -/
theorem too_many_files_uniform :
    ∀ (files : List JSFile) (file : JSFile)
      (messages : Option (List IFileError)) (ms mn : Option Nat)
      (af : Option (List String)) (m : Nat) (entry : IFileError),
      0 < m → file ∈ files →
      catalogFind messages .tooManyFiles = some entry →
      (receivesError (validator files messages (some m) ms mn af) file .tooManyFiles
        ↔ m < files.length) := by
  intro files file messages ms mn af m entry hm hf hfind
  have hm0 : m ≠ 0 := Nat.pos_iff_ne_zero.mp hm
  rw [receivesError_iff hf]
  simp [ruleCond, tooManyFilesCond, jsTruthy, hm0, hfind, Nat.not_le]

theorem too_many_files_uniform_witness :
    receivesError
      (validator [⟨"f1.txt", 1000, "text/plain"⟩, ⟨"f2.txt", 1000, "text/plain"⟩]
        (some [⟨.tooManyFiles, "Too many files"⟩]) (some 1) none none none)
      ⟨"f1.txt", 1000, "text/plain"⟩ .tooManyFiles :=
  (too_many_files_uniform
    [⟨"f1.txt", 1000, "text/plain"⟩, ⟨"f2.txt", 1000, "text/plain"⟩]
    ⟨"f1.txt", 1000, "text/plain"⟩
    (some [⟨.tooManyFiles, "Too many files"⟩]) none none none 1
    ⟨.tooManyFiles, "Too many files"⟩
    (by decide) (by decide) (by decide)).mpr (by decide)

/-- C5: every rejection record lists its violations following the fixed rule
order `too-many-files`, `file-invalid-type`, `file-too-large`,
`file-too-small` (its code list is a sublist of that order), and a file that
fails both the format check and `maxSize` gets exactly
`[file-invalid-type, file-too-large]` — all rules are evaluated, none
short-circuits the others. -/
theorem rule_order_fixed :
    (∀ (files : List JSFile) (messages : Option (List IFileError))
        (mf ms mn : Option Nat) (af : Option (List String)),
      ∀ r ∈ validator files messages mf ms mn af,
        List.Sublist (r.error.map IFileError.code) ruleOrder)
    ∧ validator [⟨"doc.pdf", 5000, "application/pdf"⟩]
        (some [⟨.fileTooLarge, "File is too large"⟩,
               ⟨.fileInvalidType, "Invalid file type"⟩])
        none (some 2000) none (some [".png"])
      = [⟨⟨"doc.pdf", 5000, "application/pdf"⟩,
          [⟨.fileInvalidType, "Invalid file type"⟩,
           ⟨.fileTooLarge, "File is too large"⟩]⟩] := by
  constructor
  · intro files messages mf ms mn af r hr
    obtain ⟨-, herr, -⟩ := mem_validator.mp hr
    rw [herr]
    exact fileErrors_codes_sublist files.length messages mf ms mn af r.file
  · decide

theorem rule_order_fixed_witness :
    List.Sublist
      ((IFileRejection.error
        ⟨⟨"doc.pdf", 5000, "application/pdf"⟩,
         [⟨.fileInvalidType, "Invalid file type"⟩,
          ⟨.fileTooLarge, "File is too large"⟩]⟩).map IFileError.code)
      ruleOrder :=
  rule_order_fixed.1 [⟨"doc.pdf", 5000, "application/pdf"⟩]
    (some [⟨.fileTooLarge, "File is too large"⟩,
           ⟨.fileInvalidType, "Invalid file type"⟩])
    none (some 2000) none (some [".png"])
    ⟨⟨"doc.pdf", 5000, "application/pdf"⟩,
     [⟨.fileInvalidType, "Invalid file type"⟩,
      ⟨.fileTooLarge, "File is too large"⟩]⟩
    (by decide)

/-- C6: the output holds at most one record per input file (their file
projections form a sublist of the input, hence duplicate-free whenever the
input is), no record has an empty error list, a file with zero violations
never appears, and record order follows input order. -/
theorem rejection_output_structure :
    ∀ (files : List JSFile) (messages : Option (List IFileError))
      (mf ms mn : Option Nat) (af : Option (List String)),
      List.Sublist ((validator files messages mf ms mn af).map IFileRejection.file)
        files
      ∧ (∀ r ∈ validator files messages mf ms mn af, r.error ≠ [])
      ∧ (∀ file : JSFile,
          fileErrors files.length messages mf ms mn af file = [] →
          ∀ r ∈ validator files messages mf ms mn af, r.file ≠ file)
      ∧ (files.Nodup →
          ((validator files messages mf ms mn af).map IFileRejection.file).Nodup) := by
  intro files messages mf ms mn af
  refine ⟨validator_files_sublist files messages mf ms mn af, ?_, ?_, ?_⟩
  · intro r hr
    obtain ⟨-, herr, hne⟩ := mem_validator.mp hr
    rw [herr]
    exact hne
  · intro file hclean r hr hfile
    obtain ⟨-, -, hne⟩ := mem_validator.mp hr
    rw [hfile] at hne
    exact hne hclean
  · intro hnd
    exact hnd.sublist (validator_files_sublist files messages mf ms mn af)

theorem rejection_output_structure_witness :
    ((validator [⟨"f1.txt", 1, "text/plain"⟩, ⟨"f2.txt", 1, "text/plain"⟩]
        (some [⟨.tooManyFiles, "Too many files"⟩]) (some 1) none none none).map
      IFileRejection.file).Nodup :=
  (rejection_output_structure
    [⟨"f1.txt", 1, "text/plain"⟩, ⟨"f2.txt", 1, "text/plain"⟩]
    (some [⟨.tooManyFiles, "Too many files"⟩]) (some 1) none none none).2.2.2
    (by decide)

/-- C7: with all four constraints absent, the validator accepts every file
of every batch: the output is the empty list. -/
theorem no_constraints_accepts_all :
    ∀ (files : List JSFile) (messages : Option (List IFileError)),
      validator files messages none none none none = [] := by
  intro files messages
  rw [validator_eq]
  apply List.filterMap_eq_nil_iff.mpr
  intro file hf
  have h : fileErrors files.length messages none none none none file = [] := by
    unfold fileErrors
    simp [tooManyFilesCond, fileInvalidTypeCond, fileTooLargeCond, fileTooSmallCond,
      jsTruthy, validateFile_true]
  simp [h]

/-- C8: a numeric constraint supplied as `0` is treated exactly like an
absent one — `maxFiles = 0`, `maxSize = 0` and `minSize = 0` each make the
validator behave identically to the corresponding absent configuration. -/
theorem zero_conflated_with_absent :
    ∀ (files : List JSFile) (messages : Option (List IFileError))
      (mf ms mn : Option Nat) (af : Option (List String)),
      validator files messages (some 0) ms mn af
        = validator files messages none ms mn af
      ∧ validator files messages mf (some 0) mn af
        = validator files messages mf none mn af
      ∧ validator files messages mf ms (some 0) af
        = validator files messages mf ms none af := by
  intro files messages mf ms mn af
  refine ⟨?_, ?_, ?_⟩
  · have hfe : ∀ file, fileErrors files.length messages (some 0) ms mn af file
        = fileErrors files.length messages none ms mn af file := by
      intro file
      unfold fileErrors
      simp [tooManyFilesCond, jsTruthy]
    simp only [validator_eq, hfe]
  · have hfe : ∀ file, fileErrors files.length messages mf (some 0) mn af file
        = fileErrors files.length messages mf none mn af file := by
      intro file
      unfold fileErrors
      simp [fileTooLargeCond, jsTruthy]
    simp only [validator_eq, hfe]
  · have hfe : ∀ file, fileErrors files.length messages mf ms (some 0) af file
        = fileErrors files.length messages mf ms none af file := by
      intro file
      unfold fileErrors
      simp [fileTooSmallCond, jsTruthy]
    simp only [validator_eq, hfe]

/-- C9: the validator is total on every input shape: it equals a per-file
`filterMap` (each file mapped to its optional rejection independently of the
others), returns `[]` on the empty batch, and never produces more records
than input files — no input aborts the batch. -/
theorem validator_total_filterMap :
    ∀ (files : List JSFile) (messages : Option (List IFileError))
      (mf ms mn : Option Nat) (af : Option (List String)),
      validator files messages mf ms mn af
        = files.filterMap (fun file =>
            if fileErrors files.length messages mf ms mn af file = [] then none
            else some { file := file,
                        error := fileErrors files.length messages mf ms mn af file })
      ∧ validator [] messages mf ms mn af = []
      ∧ (validator files messages mf ms mn af).length ≤ files.length := by
  intro files messages mf ms mn af
  refine ⟨validator_eq files messages mf ms mn af, rfl, ?_⟩
  rw [validator_eq]
  exact List.length_filterMap_le _ _

/-- C10: the validator is deterministic and stateless — structurally equal
inputs give structurally equal outputs. -/
theorem validator_deterministic :
    ∀ (files₁ files₂ : List JSFile)
      (messages₁ messages₂ : Option (List IFileError))
      (mf₁ mf₂ ms₁ ms₂ mn₁ mn₂ : Option Nat) (af₁ af₂ : Option (List String)),
      files₁ = files₂ → messages₁ = messages₂ → mf₁ = mf₂ → ms₁ = ms₂ →
      mn₁ = mn₂ → af₁ = af₂ →
      validator files₁ messages₁ mf₁ ms₁ mn₁ af₁
        = validator files₂ messages₂ mf₂ ms₂ mn₂ af₂ := by
  intro files₁ files₂ messages₁ messages₂ mf₁ mf₂ ms₁ ms₂ mn₁ mn₂ af₁ af₂
    h₁ h₂ h₃ h₄ h₅ h₆
  rw [h₁, h₂, h₃, h₄, h₅, h₆]

theorem validator_deterministic_witness :
    validator [⟨"a.txt", 1000, "text/plain"⟩]
      (some [⟨.fileTooLarge, "File is too large"⟩]) none (some 500) none none
      = validator [⟨"a.txt", 1000, "text/plain"⟩]
        (some [⟨.fileTooLarge, "File is too large"⟩]) none (some 500) none none :=
  validator_deterministic _ _ _ _ _ _ _ _ _ _ _ _ rfl rfl rfl rfl rfl rfl

end DropzoneKit
